import Mathlib

/-
Verification development for the Shunting-Yard-Calculator repository
(src/Evaluator.cpp).  The pipeline is embedded shallowly:

  * `tokenType` / `token` mirror the C++ `enum class tokenType` and
    `class token` (fields `strData`, `intData`, `fltData`, `precedence`,
    `type`, `rAssociative`, `unary`, with the same default values).
  * `lexana.lex` mirrors `lexana::lex`: a left-to-right scan.  The C++
    whitespace case advances the index and jumps back into the loop body
    with `goto _again`, bypassing the `for`-loop bound check; at the end
    of the string `data[i]` then yields the terminating NUL character,
    which falls into the fatal `default:` branch.  The embedding keeps
    this behavior through the `lexMode.afterWs` state.  The fatal
    `exit(1)` sites of the lexer are modelled as `Except.error` values of
    type `lexErr`.
  * `shuntingYard` mirrors the C++ function of the same name; the sites
    that print an error and `return {}` are modelled as `Except.error`
    values of type `shuntErr`.
  * `compute` mirrors the C++ `compute`; reads of `stack.back()` /
    pops on an empty `std::vector` are out-of-bounds in the source, so
    the embedding is total with result type `Option`: `none` stands for
    the undefined accesses.
  * `runLine` mirrors one iteration of `main`'s loop: an erroring
    `shuntingYard` hands the empty deque to `compute`.

Numeric idealization: the C++ `float` values are modelled as exact
rationals (`ℚ`), `long intData` as unbounded `Int`.  Every concrete
value appearing in the theorems below (small integers, 3.14, powers with
small integer exponents) is computed exactly by IEEE single precision as
well, so the idealization is faithful on all inputs exercised here.
`std::pow` is modelled by `fpow`, exact on integer exponents.
-/

inductive tokenType
  | nil
  | lpa
  | rpa
  | add
  | sub
  | mul
  | div
  | mod
  | exp
  | i32
  | f32
deriving DecidableEq, Repr

structure token where
  strData : String := ""
  intData : Int := 0
  fltData : ℚ := 0
  precedence : Nat := 0
  type : tokenType := tokenType.nil
  rAssociative : Bool := false
  unary : Bool := false
deriving DecidableEq, Repr

/-- Fatal lexer outcomes: the three `exit(1)` sites of `lexana::lex`
("Redefinition of float", "Unexpected: '.'", "Unexpected: c"). -/
inductive lexErr
  | redefFloat
  | unexpectedDot
  | unexpectedChar (c : Char)
deriving DecidableEq, Repr

/-- Recoverable reorder outcomes: the three `return {}` sites of
`shuntingYard` ("Right parenthesis error", "Mismatched parentheses
error", and the `default:` branch on a `nil` token). -/
inductive shuntErr
  | rightParenErr
  | mismatchedParens
  | unexpectedTok (t : token)
deriving DecidableEq, Repr

/-- The `'('` token built by `lexana::lex`. -/
def lpaTok : token := { strData := "(", precedence := 9, type := tokenType.lpa }

/-- The `')'` token built by `lexana::lex`. -/
def rpaTok : token := { strData := ")", precedence := 0, type := tokenType.rpa }

/-- The `'+'` token built by `lexana::lex`. -/
def addTok : token := { strData := "+", precedence := 2, type := tokenType.add }

/-- The binary `'-'` token built by `lexana::lex`. -/
def subTok : token := { strData := "-", precedence := 2, type := tokenType.sub }

/-- The unary-negation token built by `lexana::lex` for a `'-'` in unary
position (`strData` is `"m"`, `unary` is set, precedence 5). -/
def unaryMinusTok : token :=
  { strData := "m", precedence := 5, type := tokenType.sub, unary := true }

/-- The `'/'` token built by `lexana::lex`. -/
def divTok : token := { strData := "/", precedence := 3, type := tokenType.div }

/-- The `'*'` token built by `lexana::lex` (also for the synonym `'x'`;
`strData` is `"*"` in both cases). -/
def mulTok : token := { strData := "*", precedence := 3, type := tokenType.mul }

/-- The `'%'` token built by `lexana::lex`. -/
def modTok : token := { strData := "%", precedence := 6, type := tokenType.mod }

/-- The `'^'` token built by `lexana::lex` (the only right-associative
token). -/
def expTok : token :=
  { strData := "^", precedence := 4, type := tokenType.exp, rAssociative := true }

/-- The unary-position test of the `'-'` case of `lexana::lex`:
`formatTokens.empty() || back ∈ {add, sub, div, mul, mod, exp, lpa}`. -/
def isUnaryCtx (acc : List token) : Bool :=
  match acc.getLast? with
  | none => true
  | some t =>
    match t.type with
    | tokenType.add | tokenType.sub | tokenType.div | tokenType.mul
    | tokenType.mod | tokenType.exp | tokenType.lpa => true
    | _ => false

/-- Value of a digit string, as accumulated by the literal scanner
(models `std::stoi` on a string of decimal digits). -/
def digitsToNat (l : List Char) : Nat :=
  l.foldl (fun n c => 10 * n + (c.toNat - 48)) 0

/-- Value of a scanned literal containing one decimal point (models
`std::stof` on strings such as "3.14", ".5", "3."), as an exact
rational. -/
def parseFloatChars (l : List Char) : ℚ :=
  let ip := l.takeWhile (fun c => c ≠ '.')
  let fp := (l.dropWhile (fun c => c ≠ '.')).drop 1
  (digitsToNat ip : ℚ) + (digitsToNat fp : ℚ) / ((10 : ℚ) ^ fp.length)

/-- The literal token emitted when the scanner of `lexana::lex` stops:
type `f32` with `fltData` when a decimal point was seen, else type `i32`
with `intData`; all other fields keep their defaults (in particular the
`strData` of a literal stays empty, as in the source). -/
def mkNumTok (isF : Bool) (str : List Char) : token :=
  if isF then { type := tokenType.f32, fltData := parseFloatChars str }
  else { type := tokenType.i32, intData := (digitsToNat str : Int) }

/-- Scanner state of the embedded lexer loop.  `normal` is the top of
the `for` loop; `afterWs` is the state right after the whitespace
`goto _again` (identical dispatch, but reaching the end of the input in
this state reads the terminating NUL and hits the fatal `default:`
branch); `num isF str` is the literal-scanning inner `while` loop with
its float flag and accumulated `floatStr`. -/
inductive lexMode
  | normal
  | afterWs
  | num (isF : Bool) (str : List Char)
deriving DecidableEq, Repr

/-- One dispatch of the `switch (c)` of `lexana::lex` for a character
that is consumed in a single step.  `peek` is `data[i+1]`, used only by
the leading-`'.'` case. -/
def stepChar (c : Char) (peek : Option Char) (acc : List token) :
    Except lexErr (List token × lexMode) :=
  if c = ' ' ∨ c = '\t' ∨ c = '\n' ∨ c = '\r' then Except.ok (acc, lexMode.afterWs)
  else if c = '(' then Except.ok (acc ++ [lpaTok], lexMode.normal)
  else if c = ')' then Except.ok (acc ++ [rpaTok], lexMode.normal)
  else if c = '+' then Except.ok (acc ++ [addTok], lexMode.normal)
  else if c = '-' then
    Except.ok (acc ++ [if isUnaryCtx acc then unaryMinusTok else subTok], lexMode.normal)
  else if c = '/' then Except.ok (acc ++ [divTok], lexMode.normal)
  else if c = '*' ∨ c = 'x' then Except.ok (acc ++ [mulTok], lexMode.normal)
  else if c = '%' then Except.ok (acc ++ [modTok], lexMode.normal)
  else if c = '^' then Except.ok (acc ++ [expTok], lexMode.normal)
  else if c.isDigit then Except.ok (acc, lexMode.num false [c])
  else if c = '.' then
    match peek with
    | some d => if d.isDigit then Except.ok (acc, lexMode.num true ['.'])
                else Except.error lexErr.unexpectedDot
    | none => Except.error lexErr.unexpectedDot
  else Except.error (lexErr.unexpectedChar c)

/-- The scanning loop of `lexana::lex` over the characters of the input.
At the end of the input, `normal` terminates normally, `afterWs` reads
the NUL terminator and fails fatally, and `num` emits the pending
literal (the `--i` of the source that re-processes the stopping
character corresponds to the `stepChar` call in the `num` exit). -/
def lexGo : List Char → lexMode → List token → Except lexErr (List token)
  | [], lexMode.normal, acc => Except.ok acc
  | [], lexMode.afterWs, _ => Except.error (lexErr.unexpectedChar (Char.ofNat 0))
  | [], lexMode.num isF str, acc => Except.ok (acc ++ [mkNumTok isF str])
  | c :: rest, lexMode.num isF str, acc =>
    if c.isDigit then lexGo rest (lexMode.num isF (str ++ [c])) acc
    else if c = '_' then lexGo rest (lexMode.num isF str) acc
    else if c = '.' then
      if isF then Except.error lexErr.redefFloat
      else lexGo rest (lexMode.num true (str ++ ['.'])) acc
    else
      match stepChar c rest.head? (acc ++ [mkNumTok isF str]) with
      | Except.error e => Except.error e
      | Except.ok (acc', m') => lexGo rest m' acc'
  | c :: rest, _, acc =>
    match stepChar c rest.head? acc with
    | Except.error e => Except.error e
    | Except.ok (acc', m') => lexGo rest m' acc'

/-- `lexana::lex` on a fresh lexer (as `main` uses it: the token buffer
is cleared between lines). -/
def lexana.lex (s : String) : Except lexErr (List token) :=
  lexGo s.toList lexMode.normal []

/-- Standalone rendering of the inner literal-scanning `while` loop of
`lexana::lex`: consumes digits, underscores (discarded) and at most one
decimal point, returning the float flag, the accumulated text and the
unconsumed remainder.  `lexGo_num_eq` proves it equal to the `num` mode
of `lexGo`. -/
def scanNum : List Char → Bool → List Char → Except lexErr (Bool × List Char × List Char)
  | [], isF, str => Except.ok (isF, str, [])
  | c :: rest, isF, str =>
    if c.isDigit then scanNum rest isF (str ++ [c])
    else if c = '_' then scanNum rest isF str
    else if c = '.' then
      if isF then Except.error lexErr.redefFloat
      else scanNum rest true (str ++ ['.'])
    else Except.ok (isF, str, c :: rest)

/-- Continuation of the lexer after a literal scan stops: emit the
literal token, then (if the scan stopped on a character rather than at
the end) re-process that character. -/
def numCont (b : Bool) (s : List Char) (r : List Char) (acc : List token) :
    Except lexErr (List token) :=
  match r with
  | [] => Except.ok (acc ++ [mkNumTok b s])
  | c :: rest =>
    match stepChar c rest.head? (acc ++ [mkNumTok b s]) with
    | Except.error e => Except.error e
    | Except.ok (acc', m') => lexGo rest m' acc'

/-- The operator pop loop of `shuntingYard` (lines 291-302): while the
stack is non-empty and the associativity/precedence condition holds for
its top, move the top to the output queue.  Note the source has no
left-parenthesis guard here. -/
def popOps (o1 : token) : List token → List token → List token × List token
  | queue, [] => (queue, [])
  | queue, o2 :: rest =>
    if (o1.rAssociative = false ∧ o1.precedence ≤ o2.precedence)
       ∨ (o1.rAssociative = true ∧ o1.precedence < o2.precedence)
    then popOps o1 (queue ++ [o2]) rest
    else (queue, o2 :: rest)

/-- The right-parenthesis pop loop of `shuntingYard` (lines 315-319):
pop to the queue while the stack is non-empty and its top is not a
left paren; the boolean is the `match` flag, set when at least one
operator was popped. -/
def popToLpa : List token → List token → Bool → List token × List token × Bool
  | queue, [], m => (queue, [], m)
  | queue, o :: rest, m =>
    if o.type = tokenType.lpa then (queue, o :: rest, m)
    else popToLpa (queue ++ [o]) rest true

/-- The end-of-input drain of `shuntingYard` (lines 336-344): pop the
remaining stack to the queue, failing if a left paren is found. -/
def drain : List token → List token → Except shuntErr (List token)
  | queue, [] => Except.ok queue
  | queue, o :: rest =>
    if o.type = tokenType.lpa then Except.error shuntErr.mismatchedParens
    else drain (queue ++ [o]) rest

/-- Main loop of `shuntingYard`: dispatch on each token's type, then
drain the stack.  The stack is a list with its head as `stack.back()`.
The right-paren case errors exactly when `!match && stack.empty()`
holds after the pop loop, then discards the top if the stack is
non-empty (`s.tail`). -/
def syGo : List token → List token → List token → Except shuntErr (List token)
  | [], queue, stack => drain queue stack
  | t :: rest, queue, stack =>
    match t.type with
    | tokenType.i32 | tokenType.f32 => syGo rest (queue ++ [t]) stack
    | tokenType.add | tokenType.sub | tokenType.mul | tokenType.div
    | tokenType.mod | tokenType.exp =>
      let p := popOps t queue stack
      syGo rest p.1 (t :: p.2)
    | tokenType.lpa => syGo rest queue (t :: stack)
    | tokenType.rpa =>
      let p := popToLpa queue stack false
      if p.2.2 = false ∧ p.2.1 = [] then Except.error shuntErr.rightParenErr
      else syGo rest p.1 p.2.1.tail
    | tokenType.nil => Except.error (shuntErr.unexpectedTok t)

/-- `shuntingYard` of the source: infix token list to postfix token
list, or an error (the source prints the error and returns the empty
deque). -/
def shuntingYard (tokens : List token) : Except shuntErr (List token) :=
  syGo tokens [] []

/-- `std::pow` on the embedded numbers: exact on integer exponents
(the only exponents the development evaluates); non-integer exponents
are outside the scope of the rational idealization and map to 0. -/
def fpow (l r : ℚ) : ℚ :=
  if r.den = 1 then
    if 0 ≤ r.num then l ^ r.num.toNat
    else (l ^ (-r.num).toNat)⁻¹
  else 0

/-- The token-consuming loop of `compute`.  The value stack is a list
with head as `stack.back()`.  `none` models the out-of-bounds vector
accesses of the source (reading or popping `back()` on an empty stack).
Mirrors the source exactly: the unary case negates the top in place;
the binary case pops right then left and dispatches on the operator
type, where `mod` falls into the inner `default: break` and pushes
nothing; `nil`, `lpa` and `rpa` tokens are skipped. -/
def computeGo : List token → List ℚ → Option ℚ
  | [], stack => stack.head?
  | t :: rest, stack =>
    match t.type with
    | tokenType.nil => computeGo rest stack
    | tokenType.i32 => computeGo rest ((t.intData : ℚ) :: stack)
    | tokenType.f32 => computeGo rest (t.fltData :: stack)
    | tokenType.add | tokenType.sub | tokenType.mul | tokenType.div
    | tokenType.mod | tokenType.exp =>
      if t.unary then
        match stack with
        | [] => none
        | x :: s => computeGo rest ((x * (-1)) :: s)
      else
        match stack with
        | rhs :: lhs :: s =>
          match t.type with
          | tokenType.exp => computeGo rest (fpow lhs rhs :: s)
          | tokenType.mul => computeGo rest ((lhs * rhs) :: s)
          | tokenType.div => computeGo rest ((lhs / rhs) :: s)
          | tokenType.add => computeGo rest ((lhs + rhs) :: s)
          | tokenType.sub => computeGo rest ((lhs - rhs) :: s)
          | _ => computeGo rest s
        | _ => none
    | tokenType.lpa | tokenType.rpa => computeGo rest stack

/-- `compute` of the source: evaluate a postfix token list; the final
`stack.back()` on an empty stack is `none`. -/
def compute (formatted : List token) : Option ℚ :=
  computeGo formatted []

/-- The deque `main` passes to `compute`: `shuntingYard`'s queue, which
is empty when `shuntingYard` reported an error. -/
def reorderOut (ts : List token) : List token :=
  match shuntingYard ts with
  | Except.ok q => q
  | Except.error _ => []

/-- One iteration of `main`'s loop on one input line: lex, reorder,
evaluate.  A fatal lexer error terminates the process in the source;
here it is `none`. -/
def runLine (s : String) : Option ℚ :=
  match lexana.lex s with
  | Except.error _ => none
  | Except.ok ts => compute (reorderOut ts)

/-- Literal token for "1" as the lexer emits it. -/
def tokOne : token := mkNumTok false ['1']

/-- Literal token for "2" as the lexer emits it. -/
def tokTwo : token := mkNumTok false ['2']

/-- Literal token for "3" as the lexer emits it. -/
def tokThree : token := mkNumTok false ['3']

/-- Literal token for "4" as the lexer emits it. -/
def tokFour : token := mkNumTok false ['4']

/-- Literal token for "7" as the lexer emits it. -/
def tokSeven : token := mkNumTok false ['7']

/-- Membership in the tail of a list implies membership in the list. -/
theorem mem_of_mem_tail' {α : Type} {x : α} {l : List α} (h : x ∈ l.tail) : x ∈ l := by
  cases l with
  | nil => simp at h
  | cons a as => exact List.mem_cons_of_mem a h

/-- The operator pop loop only moves tokens: every token of its output
queue or remaining stack comes from the input queue or stack. -/
theorem popOps_mem (o1 : token) :
    ∀ (s q : List token) (x : token),
      (x ∈ (popOps o1 q s).1 ∨ x ∈ (popOps o1 q s).2) → x ∈ q ∨ x ∈ s := by
  intro s
  induction s with
  | nil => intro q x h; simpa [popOps] using h
  | cons o2 rest ih =>
    intro q x h
    by_cases hc : (o1.rAssociative = false ∧ o1.precedence ≤ o2.precedence)
       ∨ (o1.rAssociative = true ∧ o1.precedence < o2.precedence)
    · rw [popOps, if_pos hc] at h
      rcases ih (q ++ [o2]) x h with h1 | h1
      · rcases List.mem_append.mp h1 with h2 | h2
        · exact Or.inl h2
        · right; simp only [List.mem_singleton] at h2; simp [h2]
      · right; exact List.mem_cons_of_mem _ h1
    · rw [popOps, if_neg hc] at h
      simpa using h

/-- The right-paren pop loop only moves tokens. -/
theorem popToLpa_mem :
    ∀ (s q : List token) (m : Bool) (x : token),
      (x ∈ (popToLpa q s m).1 ∨ x ∈ (popToLpa q s m).2.1) → x ∈ q ∨ x ∈ s := by
  intro s
  induction s with
  | nil => intro q m x h; simpa [popToLpa] using h
  | cons o rest ih =>
    intro q m x h
    by_cases hc : o.type = tokenType.lpa
    · rw [popToLpa, if_pos hc] at h
      simpa using h
    · rw [popToLpa, if_neg hc] at h
      rcases ih (q ++ [o]) true x h with h1 | h1
      · rcases List.mem_append.mp h1 with h2 | h2
        · exact Or.inl h2
        · right; simp only [List.mem_singleton] at h2; simp [h2]
      · right; exact List.mem_cons_of_mem _ h1

/-- The end-of-input drain only moves tokens. -/
theorem drain_mem :
    ∀ (s q out : List token) (x : token),
      drain q s = Except.ok out → x ∈ out → x ∈ q ∨ x ∈ s := by
  intro s
  induction s with
  | nil =>
    intro q out x h hx
    simp only [drain, Except.ok.injEq] at h
    subst h; exact Or.inl hx
  | cons o rest ih =>
    intro q out x h hx
    by_cases hc : o.type = tokenType.lpa
    · rw [drain, if_pos hc] at h; exact absurd h (by simp)
    · rw [drain, if_neg hc] at h
      rcases ih (q ++ [o]) out x h hx with h1 | h1
      · rcases List.mem_append.mp h1 with h2 | h2
        · exact Or.inl h2
        · right; simp only [List.mem_singleton] at h2; simp [h2]
      · right; exact List.mem_cons_of_mem _ h1

/-- Every token in a successful `syGo` output comes from the input
list, the initial queue, or the initial stack: the shunting-yard loop
copies tokens around but never constructs or modifies one. -/
theorem syGo_mem :
    ∀ (ts q s out : List token) (x : token),
      syGo ts q s = Except.ok out → x ∈ out → x ∈ ts ∨ x ∈ q ∨ x ∈ s := by
  intro ts
  induction ts with
  | nil =>
    intro q s out x h hx
    simp only [syGo] at h
    rcases drain_mem s q out x h hx with h1 | h1
    · exact Or.inr (Or.inl h1)
    · exact Or.inr (Or.inr h1)
  | cons t rest ih =>
    intro q s out x h hx
    simp only [syGo] at h
    cases htt : t.type <;> rw [htt] at h
    case nil => simp at h
    case lpa =>
      rcases ih q (t :: s) out x h hx with h1 | h1 | h1
      · exact Or.inl (List.mem_cons_of_mem _ h1)
      · exact Or.inr (Or.inl h1)
      · rcases List.mem_cons.mp h1 with h2 | h2
        · exact Or.inl (by simp [h2])
        · exact Or.inr (Or.inr h2)
    case rpa =>
      by_cases hc : (popToLpa q s false).2.2 = false ∧ (popToLpa q s false).2.1 = []
      · rw [if_pos hc] at h; exact absurd h (by simp)
      · rw [if_neg hc] at h
        rcases ih (popToLpa q s false).1 (popToLpa q s false).2.1.tail out x h hx with h1 | h1 | h1
        · exact Or.inl (List.mem_cons_of_mem _ h1)
        · exact Or.inr (popToLpa_mem s q false x (Or.inl h1))
        · exact Or.inr (popToLpa_mem s q false x (Or.inr (mem_of_mem_tail' h1)))
    case i32 =>
      rcases ih (q ++ [t]) s out x h hx with h1 | h1 | h1
      · exact Or.inl (List.mem_cons_of_mem _ h1)
      · rcases List.mem_append.mp h1 with h2 | h2
        · exact Or.inr (Or.inl h2)
        · simp only [List.mem_singleton] at h2; exact Or.inl (by simp [h2])
      · exact Or.inr (Or.inr h1)
    case f32 =>
      rcases ih (q ++ [t]) s out x h hx with h1 | h1 | h1
      · exact Or.inl (List.mem_cons_of_mem _ h1)
      · rcases List.mem_append.mp h1 with h2 | h2
        · exact Or.inr (Or.inl h2)
        · simp only [List.mem_singleton] at h2; exact Or.inl (by simp [h2])
      · exact Or.inr (Or.inr h1)
    all_goals {
      rcases ih (popOps t q s).1 (t :: (popOps t q s).2) out x h hx with h1 | h1 | h1
      · exact Or.inl (List.mem_cons_of_mem _ h1)
      · exact Or.inr (popOps_mem t s q x (Or.inl h1))
      · rcases List.mem_cons.mp h1 with h2 | h2
        · exact Or.inl (by simp [h2])
        · exact Or.inr (popOps_mem t s q x (Or.inr h2)) }

/-- On a stack without left parens the right-paren pop loop moves the
whole stack to the queue, and its `match` flag is set iff the stack was
non-empty. -/
theorem popToLpa_no_lpa :
    ∀ (s q : List token) (m : Bool), (∀ x ∈ s, x.type ≠ tokenType.lpa) →
      popToLpa q s m = (q ++ s, [], if s.isEmpty then m else true) := by
  intro s
  induction s with
  | nil => intro q m _; simp [popToLpa]
  | cons o rest ih =>
    intro q m h
    have ho : o.type ≠ tokenType.lpa := h o (List.mem_cons_self o rest)
    rw [popToLpa, if_neg ho]
    rw [ih (q ++ [o]) true (fun x hx => h x (List.mem_cons_of_mem o hx))]
    simp

/-- Bridge: the `num` mode of `lexGo` is exactly the standalone scanner
`scanNum` followed by `numCont` (emit the literal token, then continue
on the remainder). -/
theorem lexGo_num_eq :
    ∀ (l : List Char) (isF : Bool) (str : List Char) (acc : List token),
      lexGo l (lexMode.num isF str) acc =
        match scanNum l isF str with
        | Except.error e => Except.error e
        | Except.ok (b, s, r) => numCont b s r acc := by
  intro l
  induction l with
  | nil => intro isF str acc; simp [lexGo, scanNum, numCont]
  | cons c rest ih =>
    intro isF str acc
    by_cases hd : c.isDigit
    · rw [lexGo, scanNum]
      simp only [hd, if_true]
      exact ih isF (str ++ [c]) acc
    · by_cases hu : c = '_'
      · rw [lexGo, scanNum]
        simp only [hd, hu, if_false, if_true]
        exact ih isF str acc
      · by_cases hp : c = '.'
        · by_cases hf : isF
          · rw [lexGo, scanNum]
            simp [hd, hu, hp, hf]
          · rw [lexGo, scanNum]
            simp only [hd, hu, hp, hf, if_false, if_true]
            simp only [Bool.false_eq_true, if_false]
            exact ih true (str ++ ['.']) acc
        · rw [lexGo, scanNum]
          simp only [hd, hu, hp, if_false]
          simp [numCont]

/-- The scanner's float flag tracks exactly whether a decimal point is
in the accumulated literal text. -/
theorem scanNum_dot_inv :
    ∀ (l : List Char) (isF : Bool) (str : List Char) (b : Bool) (s r : List Char),
      scanNum l isF str = Except.ok (b, s, r) →
      ('.' ∈ str ↔ isF = true) → ('.' ∈ s ↔ b = true) := by
  intro l
  induction l with
  | nil =>
    intro isF str b s r h hinv
    simp only [scanNum, Except.ok.injEq, Prod.mk.injEq] at h
    obtain ⟨h1, h2, _⟩ := h
    rw [← h1, ← h2]; exact hinv
  | cons c rest ih =>
    intro isF str b s r h hinv
    by_cases hd : c.isDigit
    · rw [scanNum] at h
      simp only [hd, if_true] at h
      refine ih isF (str ++ [c]) b s r h ?_
      have hcd : c ≠ '.' := by
        intro hceq; rw [hceq] at hd; simp [Char.isDigit] at hd
      constructor
      · intro hm
        rcases List.mem_append.mp hm with h2 | h2
        · exact hinv.mp h2
        · simp only [List.mem_singleton] at h2; exact absurd h2.symm hcd
      · intro hb; exact List.mem_append.mpr (Or.inl (hinv.mpr hb))
    · by_cases hu : c = '_'
      · rw [scanNum] at h
        simp only [hd, hu, if_false, if_true] at h
        exact ih isF str b s r h hinv
      · by_cases hp : c = '.'
        · by_cases hf : isF
          · rw [scanNum] at h; simp [hd, hu, hp, hf] at h
          · rw [scanNum] at h
            simp only [hd, hu, hp, hf, if_false, if_true, Bool.false_eq_true] at h
            refine ih true (str ++ ['.']) b s r h ?_
            simp
        · rw [scanNum] at h
          simp [hd, hu, hp] at h
          obtain ⟨h1, h2, h3⟩ := h
          subst h1; subst h2
          exact hinv

/-- C1: the claim states that `evaluate(reorder(lex(text)))` matches
direct evaluation under the standard precedence ordering, with
parenthesized subexpressions such as "2*(3+4)" evaluated first.  The
code violates this: its operator pop loop has no left-paren guard, so
processing the `+` inside "(3+4)" pops both the `(` and the outer `*`
into the output queue; the pipeline computes (2*3)+4 = 10 instead of
2*(3+4) = 14. -/
theorem C1_paren_divergence :
    runLine "2*(3+4)" = some 10 ∧ runLine "2*(3+4)" ≠ some ((2 : ℚ) * (3 + 4)) := by
  constructor <;>
  · simp [runLine, lexana.lex, lexGo, stepChar, isUnaryCtx, mkNumTok, digitsToNat,
      parseFloatChars, reorderOut, shuntingYard, syGo, popOps, popToLpa, drain,
      compute, computeGo, fpow, lpaTok, rpaTok, addTok, subTok, unaryMinusTok,
      divTok, mulTok, modTok, expTok]
    norm_num

/-- C2 counterexample: for the token sequence of "1+2)" the stack
empties while processing the right-paren without a left-paren ever
being found (one operator, `+`, was popped first), yet `shuntingYard`
reports no error and returns a non-empty queue — refuting the claim
that the unmatched-right-paren error fires "regardless of how many
operators were popped first". -/
theorem C2_counterexample :
    shuntingYard [tokOne, addTok, tokTwo, rpaTok] = Except.ok [tokOne, tokTwo, addTok] := rfl

/-- C2 (amended): when `reorder` processes a right-paren over a stack
containing no left-paren, it reports the unmatched-right-parenthesis
error iff the stack is empty at that moment (no operator was popped);
if the stack was non-empty, all its operators are popped to the output
queue and processing continues with no error. -/
theorem C2_rpa_error_iff (t : token) (rest queue stack : List token)
    (ht : t.type = tokenType.rpa) (h : ∀ x ∈ stack, x.type ≠ tokenType.lpa) :
    syGo (t :: rest) queue stack =
      if stack.isEmpty then Except.error shuntErr.rightParenErr
      else syGo rest (queue ++ stack) [] := by
  rw [syGo, ht]
  rw [popToLpa_no_lpa stack queue false h]
  cases stack with
  | nil => simp
  | cons o os => simp

/-- C2 witness: a right-paren over the non-empty, left-paren-free stack
`[addTok]` raises no error; the operator is flushed to the queue. -/
theorem C2_rpa_error_iff_witness : syGo [rpaTok] [] [addTok] = Except.ok [addTok] :=
  (C2_rpa_error_iff rpaTok [] [] [addTok] rfl (by decide)).trans rfl

/-- C3: the claim states whitespace anywhere — leading, interior, or
trailing — is skipped with no fatal error, so " 1 + 2 " evaluates like
"1+2".  The code violates this for trailing whitespace: the whitespace
`goto` skips the loop bound check, reads the NUL terminator past the
end of the input and dies in the fatal `default:` branch.  Leading and
interior whitespace behave as claimed (" 1 + 2" evaluates to 3). -/
theorem C3_trailing_whitespace_fatal :
    lexana.lex " 1 + 2 " = Except.error (lexErr.unexpectedChar (Char.ofNat 0)) ∧
    runLine "1+2" = some 3 ∧ runLine " 1 + 2" = some 3 := by
  refine ⟨rfl, ?_, ?_⟩ <;>
  · simp [runLine, lexana.lex, lexGo, stepChar, isUnaryCtx, mkNumTok, digitsToNat,
      parseFloatChars, reorderOut, shuntingYard, syGo, popOps, popToLpa, drain,
      compute, computeGo, fpow, lpaTok, rpaTok, addTok, subTok, unaryMinusTok,
      divTok, mulTok, modTok, expTok]
    norm_num

/-- C4: the claim states a binary modulo pops two operands, computes
the floating-point modulo and pushes the result.  The code pops both
operands but its inner operator switch has no `mod` case: control falls
into `default: break` and nothing is pushed, so "7%3" leaves the value
stack empty and the final `stack.back()` is an out-of-bounds read
(`none` in this total embedding) instead of `fmod(7,3) = 1`. -/
theorem C4_modulo_not_computed :
    runLine "7%3" = none ∧
    compute [tokSeven, tokThree, modTok] = none ∧
    computeGo [modTok] [(3 : ℚ), 7] = none := by
  refine ⟨?_, ?_, ?_⟩
  · simp [runLine, lexana.lex, lexGo, stepChar, isUnaryCtx, mkNumTok, digitsToNat,
      parseFloatChars, reorderOut, shuntingYard, syGo, popOps, popToLpa, drain,
      compute, computeGo, fpow, lpaTok, rpaTok, addTok, subTok, unaryMinusTok,
      divTok, mulTok, modTok, expTok]
  · simp [compute, computeGo, tokSeven, tokThree, mkNumTok, digitsToNat, modTok]
  · simp [computeGo, modTok]

/-- C5: the claim states both ")1+2" and "(1+2" are reported as
structural errors with an empty result.  The code satisfies this for
")1+2" (right-paren on an empty stack) but violates it for "(1+2":
the pop loop's missing left-paren guard moves the `(` into the output
queue when `+` is processed, so no left-paren remains on the stack at
end of input, no mismatched-parentheses error is raised, and the
pipeline evaluates "(1+2" to 3. -/
theorem C5_paren_error_asymmetry :
    lexana.lex ")1+2" = Except.ok [rpaTok, tokOne, addTok, tokTwo] ∧
    shuntingYard [rpaTok, tokOne, addTok, tokTwo] = Except.error shuntErr.rightParenErr ∧
    lexana.lex "(1+2" = Except.ok [lpaTok, tokOne, addTok, tokTwo] ∧
    shuntingYard [lpaTok, tokOne, addTok, tokTwo] = Except.ok [tokOne, lpaTok, tokTwo, addTok] ∧
    runLine "(1+2" = some 3 := by
  refine ⟨rfl, rfl, rfl, rfl, ?_⟩
  simp [runLine, lexana.lex, lexGo, stepChar, isUnaryCtx, mkNumTok, digitsToNat,
    parseFloatChars, reorderOut, shuntingYard, syGo, popOps, popToLpa, drain,
    compute, computeGo, fpow, lpaTok, rpaTok, addTok, subTok, unaryMinusTok,
    divTok, mulTok, modTok, expTok]
  norm_num

/-- C6: "2^3^2" evaluates to 512 = 2^(3^2), not 64: chained
exponentiation groups right-to-left because the pop condition for the
right-associative `^` uses strict `<`, so equal-precedence `^` tokens
do not pop each other. -/
theorem C6_power_right_associative :
    runLine "2^3^2" = some 512 ∧ runLine "2^3^2" ≠ some 64 := by
  constructor <;>
  · simp [runLine, lexana.lex, lexGo, stepChar, isUnaryCtx, mkNumTok, digitsToNat,
      parseFloatChars, reorderOut, shuntingYard, syGo, popOps, popToLpa, drain,
      compute, computeGo, fpow, lpaTok, rpaTok, addTok, subTok, unaryMinusTok,
      divTok, mulTok, modTok, expTok, Rat.den_intCast, Rat.num_intCast]
    norm_num

/-- C7: "-3^2" evaluates to 9 = (-3)^2: the leading `-` is lexed as
unary negation with precedence 5, which outranks power (precedence 4),
so the negation is applied to 3 before the exponentiation. -/
theorem C7_unary_minus_before_power :
    runLine "-3^2" = some 9 := by
  simp [runLine, lexana.lex, lexGo, stepChar, isUnaryCtx, mkNumTok, digitsToNat,
    parseFloatChars, reorderOut, shuntingYard, syGo, popOps, popToLpa, drain,
    compute, computeGo, fpow, lpaTok, rpaTok, addTok, subTok, unaryMinusTok,
    divTok, mulTok, modTok, expTok, Rat.den_intCast, Rat.num_intCast]
  norm_num

/-- C8: numeric-literal lexing.  "3.14" lexes to a single float-literal
token of value 3.14; "3_000" lexes to a single integer-literal token of
value 3000 (underscores discarded); "3.1.4" is a fatal lexing error
(second decimal point in one literal); and in general a scanned literal
is classified float iff its accumulated text contains a decimal
point. -/
theorem C8_literal_lexing :
    lexana.lex "3.14" = Except.ok [mkNumTok true ['3', '.', '1', '4']] ∧
    (mkNumTok true ['3', '.', '1', '4']).fltData = 3.14 ∧
    (mkNumTok true ['3', '.', '1', '4']).type = tokenType.f32 ∧
    lexana.lex "3_000" = Except.ok [{ type := tokenType.i32, intData := 3000 }] ∧
    lexana.lex "3.1.4" = Except.error lexErr.redefFloat ∧
    ∀ (l : List Char) (b : Bool) (s r : List Char),
      scanNum l false [] = Except.ok (b, s, r) → (b = true ↔ '.' ∈ s) := by
  refine ⟨rfl, ?_, rfl, rfl, rfl, ?_⟩
  · simp [mkNumTok, parseFloatChars, digitsToNat, List.takeWhile, List.dropWhile]
    norm_num
  · intro l b s r h
    exact (scanNum_dot_inv l false [] b s r h (by simp)).symm

/-- C8 witness: scanning "3.4" yields the float flag, and indeed the
accumulated text contains the decimal point. -/
theorem C8_literal_lexing_witness : (true = true ↔ '.' ∈ ['3', '.', '4']) :=
  C8_literal_lexing.2.2.2.2.2 ['3', '.', '4'] true ['3', '.', '4'] [] rfl

/-- C9: every token in the sequence the reorderer hands to the
evaluator is field-for-field equal (Lean equality of the `token`
record) to some token of its input sequence: the shunting-yard stage
reorders tokens but never constructs or mutates one. -/
theorem C9_reorder_preserves_tokens (ts : List token) (x : token)
    (hx : x ∈ reorderOut ts) : x ∈ ts := by
  unfold reorderOut at hx
  cases h : shuntingYard ts with
  | ok q =>
    rw [h] at hx
    simp only at hx
    rcases syGo_mem ts [] [] q x h hx with h1 | h1 | h1
    · exact h1
    · simp at h1
    · simp at h1
  | error e => rw [h] at hx; simp at hx

/-- C9 witness: the `+` token of the reordered "1+2" is a token of the
input sequence. -/
theorem C9_reorder_preserves_tokens_witness : addTok ∈ [tokOne, addTok, tokTwo] :=
  C9_reorder_preserves_tokens [tokOne, addTok, tokTwo] addTok (by decide)

/-- C10: `compute` on the empty token sequence terminates with an empty
value stack, and its final read of the stack top is undefined (`none`
in this total embedding); this branch is reached from the public
pipeline whenever `shuntingYard` fails, because `main` then hands the
empty deque to `compute`. -/
theorem C10_error_path_reaches_empty_compute :
    compute [] = none ∧
    ∀ (s : String) (ts : List token) (e : shuntErr),
      lexana.lex s = Except.ok ts → shuntingYard ts = Except.error e →
      runLine s = none := by
  refine ⟨rfl, ?_⟩
  intro s ts e hl hs
  simp only [runLine, hl]
  simp only [reorderOut, hs]
  rfl

/-- C10 witness: ")1+2" lexes successfully, its reorder fails, and the
full pipeline yields the undefined empty-stack read. -/
theorem C10_error_path_reaches_empty_compute_witness : runLine ")1+2" = none :=
  C10_error_path_reaches_empty_compute.2 ")1+2" [rpaTok, tokOne, addTok, tokTwo]
    shuntErr.rightParenErr rfl rfl
